import Mathlib

/-!
Verification of the delhigrid complaint-analysis pipeline and its database
triggers, as a shallow embedding in Lean.

The embedding covers:
- `src/lib/gemini.ts` (`analyzeComplaint`, `isGeminiConfigured`): the
  response-interpretation pipeline — markdown fence stripping, the regex
  salvage path for malformed JSON, category / suggestion / ward
  normalization, and the sequential multi-model retry loop;
- the SQL trigger functions `handle_complaint_initial_timeline`,
  `handle_complaint_status_change` (timeline maintenance) and
  `update_user_score_on_verification` (reward propagation).

Conventions: JavaScript optional / nullable values are `Option _`; a missing
or non-numeric `ward_id` is `none`; SQL NULL is `none`.  JavaScript
truthiness of a number is `≠ 0`, of a string is `≠ ""`.  `toLowerCase` is
modelled on ASCII (the category vocabulary is ASCII).
-/

namespace Delhigrid

/-- The fixed category vocabulary (`CATEGORIES` in gemini.ts). -/
def CATEGORIES : List String := ["air", "water", "noise", "transport", "soil", "land"]

/-- The fixed generic acknowledgement used when the suggestion is empty/missing. -/
def defaultSuggestion : String :=
  "Thank you for reporting. Our team will look into this."

/-- A ward gazetteer entry (`src/data/wards`, referenced but reference data). -/
structure Ward where
  id : Int
  name : String
  zone : String
deriving DecidableEq, Repr

/-- The structured analysis result returned by `analyzeComplaint`. -/
structure GeminiAnalysis where
  category : String
  suggestion : String
  wardId : Int
  wardName : String
deriving DecidableEq, Repr

/-- The loosely-typed object produced by the parse stage (tier 1 JSON parse
or tier 2 regex salvage) before normalization. -/
structure Parsed where
  category : Option String
  suggestion : Option String
  ward_id : Option Int
  ward_name : Option String
deriving DecidableEq, Repr

/-- `toLowerCase` modelled on ASCII, character by character. -/
def toLowerStr (s : String) : String := String.mk (s.data.map Char.toLower)

/-- `category?.toLowerCase()` membership check and default
(gemini.ts lines 166-169): lower-case, keep if in the vocabulary, else the
catch-all `"land"`. -/
def resolveCategory (category : Option String) : String :=
  match category with
  | some c => if CATEGORIES.contains (toLowerStr c) then toLowerStr c else "land"
  | none => "land"

/-- `parsedTyped.suggestion || defaultSuggestion` (gemini.ts lines 182-184):
JS `||` replaces only a missing or empty string. -/
def resolveSuggestion (suggestion : Option String) : String :=
  match suggestion with
  | some s => if s = "" then defaultSuggestion else s
  | none => defaultSuggestion

/-- `fallbackWardId || 1`: a supplied nonzero fallback, else 1 (JS numeric
truthiness makes a zero fallback behave like an absent one). -/
def fallbackOr1 (fallbackWardId : Option Int) : Int :=
  match fallbackWardId with
  | some m => if m ≠ 0 then m else 1
  | none => 1

/-- `Math.min(250, Math.max(1, Number(parsedTyped.ward_id) || fallbackWardId || 1))`
(gemini.ts line 171).  `Number` of a missing / non-numeric field is NaN
(`none` here) and is falsy, as is 0, so both fall through to the fallback
chain before clamping. -/
def clampWardId (ward_id : Option Int) (fallbackWardId : Option Int) : Int :=
  let raw : Int :=
    match ward_id with
    | some n => if n ≠ 0 then n else fallbackOr1 fallbackWardId
    | none => fallbackOr1 fallbackWardId
  min 250 (max 1 raw)

/-- Ward-name resolution (gemini.ts lines 172-178), parameterized by the
gazetteer `ws` (the imported `wards` list): a gazetteer hit overwrites the
model-supplied name; on a miss with a truthy fallback the id is replaced by
the fallback and its gazetteer name is used, with the synthesized label
`"Ward {id}"` when the fallback is itself ungazetteered (or its entry's
name is empty, by JS `||`). -/
def resolveWard (ws : List Ward) (fallbackWardId : Option Int) (wardId : Int)
    (ward_name : Option String) : Int × String :=
  let wardName := match ward_name with
    | some s => s
    | none => ""
  match ws.find? (fun w => w.id == wardId) with
  | some w => (wardId, w.name)
  | none =>
    match fallbackWardId with
    | some f =>
      if f ≠ 0 then
        (f, match ws.find? (fun w => w.id == f) with
            | some w => if w.name = "" then "Ward " ++ toString f else w.name
            | none => "Ward " ++ toString f)
      else (wardId, wardName)
    | none => (wardId, wardName)

/-- The full normalization stage (gemini.ts lines 166-187) assembling the
returned `GeminiAnalysis` from a parsed object. -/
def normalize (ws : List Ward) (fallbackWardId : Option Int) (p : Parsed) :
    GeminiAnalysis :=
  let wid := clampWardId p.ward_id fallbackWardId
  let rw := resolveWard ws fallbackWardId wid p.ward_name
  { category := resolveCategory p.category
    suggestion := resolveSuggestion p.suggestion
    wardId := rw.1
    wardName := rw.2 }

/-- `!!GEMINI_API_KEY` (gemini.ts lines 196-198): the key is configured when
present and non-empty (an empty string is falsy). -/
def isGeminiConfigured (apiKey : Option String) : Bool :=
  match apiKey with
  | some k => !(k == "")
  | none => false

/-! ## Markdown fence stripping (gemini.ts lines 137-141) -/

/-- Whitespace as matched by the regexes' `\s` and by `trim` (the common
ASCII whitespace characters). -/
def isWs (c : Char) : Bool := c = ' ' || c = '\t' || c = '\n' || c = '\r'

/-- The backquote character that delimits markdown code fences. -/
def backquote : Char := Char.ofNat 96

/-- Case-insensitive comparison of a character against a lower-case letter
(the `i` flag on the leading-fence regex). -/
def lowEq (c : Char) (d : Char) : Bool := c.toLower = d

/-- The optional `json` tag after an opening fence (`(?:json)?` with `i`). -/
def stripJsonTag (l : List Char) : List Char :=
  match l with
  | c1 :: c2 :: c3 :: c4 :: rest =>
    if lowEq c1 'j' && lowEq c2 's' && lowEq c3 'o' && lowEq c4 'n' then rest
    else l
  | _ => l

/-- `.replace(/^```(?:json)?\s*/i, "")`: an opening fence, an optional
`json` tag, and following whitespace are removed from the front. -/
def stripLeadFence (l : List Char) : List Char :=
  match l with
  | c1 :: c2 :: c3 :: rest =>
    if c1 = backquote && c2 = backquote && c3 = backquote then
      (stripJsonTag rest).dropWhile isWs
    else l
  | _ => l

/-- Whether `\s*```\s*$` matches the whole remaining text: optional leading
whitespace, a closing fence, and only whitespace to the end. -/
def trailMatchAt (l : List Char) : Bool :=
  match l.dropWhile isWs with
  | c1 :: c2 :: c3 :: rest =>
    c1 = backquote && c2 = backquote && c3 = backquote && rest.all isWs
  | _ => false

/-- `.replace(/\s*```\s*$/, "")`: the leftmost suffix matching the
anchored pattern is removed (the match always extends to the end). -/
def stripTrailFence : List Char → List Char
  | [] => []
  | c :: rest =>
    if trailMatchAt (c :: rest) then [] else c :: stripTrailFence rest

/-- Whether the text begins with an opening fence — the shape the leading
regex anchors on. -/
def startsWithFence (l : List Char) : Bool :=
  match l with
  | c1 :: c2 :: c3 :: _ => c1 = backquote && c2 = backquote && c3 = backquote
  | _ => false

/-- Whether some suffix of the text matches the trailing-fence pattern —
exactly when `stripTrailFence` removes something. -/
def hasTrailFence : List Char → Bool
  | [] => false
  | c :: rest => trailMatchAt (c :: rest) || hasTrailFence rest

/-- Right trim. -/
def trimRight : List Char → List Char
  | [] => []
  | c :: rest =>
    match trimRight rest with
    | [] => if isWs c then [] else [c]
    | r => c :: r

/-- `String.prototype.trim`. -/
def trimWsL (l : List Char) : List Char := trimRight (l.dropWhile isWs)

/-- The whole preprocessing applied to the model's text before JSON parsing
(gemini.ts lines 131 and 138-141): trim, strip the leading fence, strip the
trailing fence, trim again. -/
def stripFences (s : String) : String :=
  String.mk (trimWsL (stripTrailFence (stripLeadFence (trimWsL s.data))))

/-- The opening fence of a ```` ```json ````-wrapped payload, with its
line break. -/
def fenceOpenJson : List Char :=
  [backquote, backquote, backquote, 'j', 's', 'o', 'n', '\n']

/-- The opening fence of a plain ```` ``` ````-wrapped payload. -/
def fenceOpenPlain : List Char := [backquote, backquote, backquote, '\n']

/-- The closing fence, with its preceding line break. -/
def fenceClose : List Char := ['\n', backquote, backquote, backquote]

/-! ## Regex salvage of malformed JSON (gemini.ts lines 146-158) -/

/-- Digit run to a natural number (the value `parseInt` / `parseFloat`
assign to a decimal digit string). -/
def digitsToNat (ds : List Char) : Nat :=
  ds.foldl (fun acc c => acc * 10 + (c.toNat - 48)) 0

/-- Match a literal character sequence, returning the rest. -/
def matchLit : List Char → List Char → Option (List Char)
  | [], l => some l
  | _ :: _, [] => none
  | p :: ps, c :: cs => if c = p then matchLit ps cs else none

/-- Require one specific character. -/
def expectChar (x : Char) : List Char → Option (List Char)
  | c :: rest => if c = x then some rest else none
  | [] => none

/-- Leftmost-match scan: try the matcher at every start position, as a
non-global regex search does. -/
def scanFor (m : List Char → Option α) : List Char → Option α
  | [] => m []
  | l@(_ :: rest) =>
    match m l with
    | some r => some r
    | none => scanFor m rest

/-- After the literal field name: `\s*:\s*"` — whitespace, a colon,
whitespace, and the opening quote of the value. -/
def matchColonQuote (l : List Char) : Option (List Char) :=
  match expectChar ':' (l.dropWhile isWs) with
  | none => none
  | some r3 => expectChar '"' (r3.dropWhile isWs)

/-- A quote-free capture `([^"]*)` with its closing quote: the maximal run
of non-quote characters, which must be followed by the closing quote. -/
def quoteCapture (r5 : List Char) : Option (List Char) :=
  match r5.drop (r5.takeWhile (fun c => c ≠ '"')).length with
  | [] => none
  | _ :: _ => some (r5.takeWhile (fun c => c ≠ '"'))

/-- `/"category"\s*:\s*"([^"]+)"/` at one position: the capture is the
maximal run of non-quote characters, which must be non-empty and closed. -/
def matchCategoryAt (l : List Char) : Option String :=
  match matchLit "\"category\"".data l with
  | none => none
  | some r1 =>
    match matchColonQuote r1 with
    | none => none
    | some r5 =>
      match quoteCapture r5 with
      | none => none
      | some [] => none
      | some (c :: cap) => some (String.mk (c :: cap))

/-- The body `((?:[^"\\]|\\.)*)"` of the suggestion pattern: unescaped
characters and backslash escapes (the dot does not match a line break) up
to a closing quote; the capture keeps escapes verbatim. -/
def sugBody : List Char → Option (List Char × List Char)
  | [] => none
  | c :: rest =>
    if c = '"' then some ([], rest)
    else if c = '\\' then
      match rest with
      | [] => none
      | d :: rest2 =>
        if d = '\n' || d = '\r' then none
        else
          match sugBody rest2 with
          | some (cap, r) => some ('\\' :: d :: cap, r)
          | none => none
    else
      match sugBody rest with
      | some (cap, r) => some (c :: cap, r)
      | none => none

/-- `/"suggestion"\s*:\s*"((?:[^"\\]|\\.)*)"/` at one position. -/
def matchSuggestionAt (l : List Char) : Option String :=
  match matchLit "\"suggestion\"".data l with
  | none => none
  | some r1 =>
    match matchColonQuote r1 with
    | none => none
    | some r5 =>
      match sugBody r5 with
      | none => none
      | some (cap, _) => some (String.mk cap)

/-- `/"ward_id"\s*:\s*(\d+)/` at one position, already run through
`parseInt(-, 10)`. -/
def matchWardIdAt (l : List Char) : Option Nat :=
  match matchLit "\"ward_id\"".data l with
  | none => none
  | some r1 =>
    match expectChar ':' (r1.dropWhile isWs) with
    | none => none
    | some r3 =>
      match (r3.dropWhile isWs).takeWhile Char.isDigit with
      | [] => none
      | d :: ds => some (digitsToNat (d :: ds))

/-- `/"ward_name"\s*:\s*"([^"]*)"/` at one position: like the category
pattern but the capture may be empty. -/
def matchWardNameAt (l : List Char) : Option String :=
  match matchLit "\"ward_name\"".data l with
  | none => none
  | some r1 =>
    match matchColonQuote r1 with
    | none => none
    | some r5 =>
      match quoteCapture r5 with
      | none => none
      | some cap => some (String.mk cap)

/-- `jsonStr.match(/"category"\s*:\s*"([^"]+)"/)` capture. -/
def findCategory (s : String) : Option String := scanFor matchCategoryAt s.data

/-- `jsonStr.match(/"suggestion"\s*:\s*"((?:[^"\\]|\\.)*)"/)` capture. -/
def findSuggestion (s : String) : Option String :=
  scanFor matchSuggestionAt s.data

/-- `jsonStr.match(/"ward_id"\s*:\s*(\d+)/)` capture as a number. -/
def findWardId (s : String) : Option Nat := scanFor matchWardIdAt s.data

/-- `jsonStr.match(/"ward_name"\s*:\s*"([^"]*)"/)` capture. -/
def findWardName (s : String) : Option String := scanFor matchWardNameAt s.data

/-- `.replace(/\\(.)/g, "$1")`: every backslash escape collapses to the
escaped character (a backslash before a line break is left alone, since the
dot does not match it). -/
def unescChars : List Char → List Char
  | [] => []
  | c :: rest =>
    if c = '\\' then
      match rest with
      | [] => ['\\']
      | d :: rest2 =>
        if d = '\n' || d = '\r' then '\\' :: d :: unescChars rest2
        else d :: unescChars rest2
    else c :: unescChars rest

/-- String form of `unescChars`. -/
def unescape (s : String) : String := String.mk (unescChars s.data)

/-- The regex salvage path (gemini.ts lines 147-157), entered when strict
JSON parsing throws: each field is extracted independently and defaulted
when unmatched (category to `"land"`, suggestion to the generic
acknowledgement after unescaping, ward_id to `fallbackWardId || 1`,
ward_name to the empty string). -/
def regexFallback (jsonStr : String) (fallbackWardId : Option Int) : Parsed :=
  { category := some (match findCategory jsonStr with
      | some c => if c = "" then "land" else c
      | none => "land")
    suggestion := some (match findSuggestion jsonStr with
      | some s => if unescape s = "" then defaultSuggestion else unescape s
      | none => defaultSuggestion)
    ward_id := some (match findWardId jsonStr with
      | some n => (n : Int)
      | none => fallbackOr1 fallbackWardId)
    ward_name := some ((findWardName jsonStr).getD "") }

/-! ## The sequential multi-model retry loop (gemini.ts lines 92-193) -/

/-- `String(retryDelay).replace("s", "")`: JS `replace` with a string pattern
removes only the first occurrence. -/
def replaceFirstS : List Char → List Char
  | [] => []
  | c :: rest => if c = 's' then rest else c :: replaceFirstS rest

/-- `Math.ceil(parseFloat(s))` on a simple decimal string: leading digits,
an optional fractional part; `none` when no digits are found (NaN). -/
def parseFloatCeil (s : List Char) : Option Nat :=
  let intDigits := s.takeWhile Char.isDigit
  let rest := s.drop intDigits.length
  let fracDigits := match rest with
    | '.' :: r => r.takeWhile Char.isDigit
    | _ => []
  if intDigits = [] ∧ fracDigits = [] then none
  else some (digitsToNat intDigits + (if fracDigits.any (fun c => c ≠ '0') then 1 else 0))

/-- Retry delay extraction for a 429 (gemini.ts lines 111-115): default 60
seconds; a server-supplied delay string like `"30s"` has its first `s`
removed and is parsed, with NaN or 0 falling back to 60. -/
def retrySecOf (retryDelay : Option String) : Nat :=
  match retryDelay with
  | none => 60
  | some d =>
    match parseFloatCeil (replaceFirstS d.data) with
    | none => 60
    | some n => if n = 0 then 60 else n

/-- The rate-limit error message (gemini.ts lines 117-119). -/
def rateLimitMsg (retrySec : Nat) : String :=
  "Gemini API rate limit reached. Please wait " ++ toString retrySec ++
    " seconds and try again. Check quota at aistudio.google.com"

/-- The generic failure thrown when no error was recorded (gemini.ts line 193). -/
def genericFailureMsg : String := "Gemini API request failed"

/-- Outcome of one model attempt, abstracting the HTTP exchange: a 429 with
an optional server retry delay, another non-2xx status with its body, a 2xx
whose extracted text is empty/missing, a thrown per-attempt exception, or a
2xx whose text interprets to an analysis. -/
inductive Outcome where
  | success (a : GeminiAnalysis)
  | rate429 (retryDelay : Option String)
  | httpError (status : Nat) (body : String)
  | emptyText
  | thrown (msg : String)
deriving DecidableEq, Repr

/-- Whether an attempt outcome is the success case. -/
def Outcome.isSuccess : Outcome → Bool
  | .success _ => true
  | _ => false

/-- `err.slice(0, 200)`: the error body truncated to 200 characters. -/
def takeStr (s : String) (n : Nat) : String := String.mk (s.data.take n)

/-- The error message each failing attempt records into `lastError`. -/
def attemptError : Outcome → Option String
  | .success _ => none
  | .rate429 d => some (rateLimitMsg (retrySecOf d))
  | .httpError status body =>
    some ("Gemini API error: " ++ toString status ++ " - " ++ takeStr body 200)
  | .emptyText => some "No response from Gemini"
  | .thrown msg => some msg

/-- The `for (const model of GEMINI_MODELS)` loop (gemini.ts lines 92-193):
each failing attempt overwrites `lastError` and continues; the first success
returns; when the list is exhausted the last recorded error (or the generic
failure) is thrown. -/
def runModels : List Outcome → Option String → Except String GeminiAnalysis
  | [], lastError => .error (lastError.getD genericFailureMsg)
  | o :: rest, _ =>
    match o with
    | .success a => .ok a
    | _ => runModels rest (attemptError o)

/-- The configuration error message (gemini.ts line 53). -/
def configErrorMsg : String :=
  "Gemini API key not configured. Add VITE_GEMINI_API_KEY to .env"

/-- `analyzeComplaint`'s outer shape (gemini.ts lines 52-54, 92-193): the
key check precedes the model loop; `outcomes` abstracts the per-model
network exchanges, which are never consulted when the key is missing. -/
def analyzeComplaintResult (apiKey : Option String) (outcomes : List Outcome) :
    Except String GeminiAnalysis :=
  if isGeminiConfigured apiKey then runModels outcomes none
  else .error configErrorMsg

/-! ## Database trigger functions (SQL migrations) -/

/-- One timeline entry `{status, timestamp, updated_by}`. -/
structure TimelineEntry where
  status : Option String
  timestamp : Nat
  updated_by : Option String
deriving DecidableEq, Repr

/-- A complaints row (the columns the triggers touch); `status` is nullable
(the table declares no NOT NULL on it). -/
structure ComplaintRow where
  status : Option String
  timeline : List TimelineEntry
  user_id : String
  points_rewarded : Option Int
deriving DecidableEq, Repr

/-- SQL `a <> b` under three-valued logic, as used in an `IF` condition:
true only when both operands are non-NULL and differ. -/
def sqlNeq (a b : Option String) : Bool :=
  match a, b with
  | some x, some y => x ≠ y
  | _, _ => false

/-- SQL `a IS DISTINCT FROM b`: NULL-safe inequality. -/
def isDistinctFrom (a b : Option String) : Bool := a ≠ b

/-- `handle_complaint_initial_timeline` + the `on_complaint_created` BEFORE
INSERT trigger: the timeline is overwritten with a single entry recording
the initial status, stamped with the inserting user. -/
def handle_complaint_initial_timeline (row : ComplaintRow) (now : Nat) :
    ComplaintRow :=
  { row with timeline := [⟨row.status, now, some row.user_id⟩] }

/-- `handle_complaint_status_change` body (migration ...000005 lines 23-35):
append an entry when `OLD.status IS NULL OR OLD.status <> NEW.status`. -/
def handle_complaint_status_change (oldStatus newStatus : Option String)
    (timeline : List TimelineEntry) (now : Nat) (actor : Option String) :
    List TimelineEntry :=
  if oldStatus.isNone || sqlNeq oldStatus newStatus then
    timeline ++ [⟨newStatus, now, actor⟩]
  else timeline

/-- An UPDATE that changes only `status` (the application never writes the
timeline itself), with the `on_complaint_status_change` trigger firing
`WHEN (OLD.status IS DISTINCT FROM NEW.status)`. -/
def updateComplaintStatus (row : ComplaintRow) (newStatus : Option String)
    (now : Nat) (actor : Option String) : ComplaintRow :=
  if isDistinctFrom row.status newStatus then
    { row with status := newStatus,
               timeline := handle_complaint_status_change row.status newStatus
                 row.timeline now actor }
  else { row with status := newStatus }

/-- A users row (the columns the reward trigger touches); both counters are
nullable and coalesced to 0 by the trigger. -/
structure UserRow where
  score : Option Int
  wallet_balance : Option Int
deriving DecidableEq, Repr

/-- SQL `COALESCE(x, 0)`. -/
def coalesce0 (x : Option Int) : Int := x.getD 0

/-- `update_user_score_on_verification` (src/unnamed/part_000 lines 9-22):
when the complaint's status becomes `'verified'` from a NULL or different
prior status, add `COALESCE(NEW.points_rewarded, 0)` to both the owning
user's score and wallet balance; otherwise leave the user untouched. -/
def update_user_score_on_verification (oldStatus newStatus : Option String)
    (points_rewarded : Option Int) (u : UserRow) : UserRow :=
  if (newStatus == some "verified") &&
      (oldStatus.isNone || sqlNeq oldStatus (some "verified")) then
    { score := some (coalesce0 u.score + coalesce0 points_rewarded),
      wallet_balance :=
        some (coalesce0 u.wallet_balance + coalesce0 points_rewarded) }
  else u

/-! ## Theorems -/

/-- Claim C1 is false as stated: `ward_id = 0` is integer-like and below 1,
yet with `fallbackWardId = 7` supplied the resolved ward id is 7, not 1
(JS `Number(0)` is falsy, so 0 falls through to the fallback chain). -/
theorem clampWardId_zero_cex :
    clampWardId (some 0) (some 7) = 7 ∧ clampWardId (some 0) (some 7) ≠ 1 ∧
      (0 : Int) < 1 := by
  decide

/-- Claim C1 (amended): the resolved ward id is the numeric `ward_id`
clamped into [1,250] — a nonzero value below 1 clamps to 1 and a value
above 250 clamps to 250 — while a zero, non-numeric or absent `ward_id`
falls back to a supplied nonzero `fallbackWardId` (itself clamped into
[1,250]), else to 1. -/
theorem clampWardId_spec (w fb : Option Int) :
    (∀ n : Int, w = some n → n ≠ 0 → n < 1 → clampWardId w fb = 1) ∧
    (∀ n : Int, w = some n → 250 < n → clampWardId w fb = 250) ∧
    (∀ n : Int, w = some n → 1 ≤ n → n ≤ 250 → clampWardId w fb = n) ∧
    (∀ m : Int, (w = none ∨ w = some 0) → fb = some m → m ≠ 0 →
      clampWardId w fb = min 250 (max 1 m)) ∧
    ((w = none ∨ w = some 0) → (fb = none ∨ fb = some 0) →
      clampWardId w fb = 1) := by
  refine ⟨?_, ?_, ?_, ?_, ?_⟩
  · rintro n rfl hn hlt
    simp only [clampWardId, if_pos hn]
    omega
  · rintro n rfl h250
    have hn : n ≠ 0 := by omega
    simp only [clampWardId, if_pos hn]
    omega
  · rintro n rfl h1 h2
    have hn : n ≠ 0 := by omega
    simp only [clampWardId, if_pos hn]
    omega
  · rintro m hw rfl hm
    rcases hw with rfl | rfl <;>
      simp [clampWardId, fallbackOr1, hm]
  · rintro hw hfb
    rcases hw with rfl | rfl <;> rcases hfb with rfl | rfl <;>
      simp [clampWardId, fallbackOr1]

/-- Witness for the amended C1 at concrete inputs. -/
theorem clampWardId_spec_witness :
    clampWardId (some (-3)) (some 9) = 1 ∧
    clampWardId (some 999) none = 250 ∧
    clampWardId (some 42) (some 9) = 42 ∧
    clampWardId none (some 300) = 250 ∧
    clampWardId (some 0) none = 1 := by
  refine ⟨?_, ?_, ?_, ?_, ?_⟩
  · exact (clampWardId_spec (some (-3)) (some 9)).1 (-3) rfl (by decide) (by decide)
  · exact (clampWardId_spec (some 999) none).2.1 999 rfl (by decide)
  · exact (clampWardId_spec (some 42) (some 9)).2.2.1 42 rfl (by decide) (by decide)
  · exact ((clampWardId_spec none (some 300)).2.2.2.1 300 (Or.inl rfl) rfl
      (by decide)).trans (by decide)
  · exact (clampWardId_spec (some 0) none).2.2.2.2 (Or.inr rfl) (Or.inl rfl)

/-- Claim C2: a category that lower-cases into the six-value vocabulary is
returned lower-cased; any other string, and an absent category, resolve to
the fixed default `"land"`. -/
theorem resolveCategory_spec (c : String) :
    (CATEGORIES.contains (toLowerStr c) = true →
      resolveCategory (some c) = toLowerStr c) ∧
    (CATEGORIES.contains (toLowerStr c) = false →
      resolveCategory (some c) = "land") ∧
    resolveCategory none = "land" := by
  refine ⟨fun h => ?_, fun h => ?_, rfl⟩ <;> simp only [resolveCategory, h] <;> rfl

/-- Witness for C2 at concrete inputs. -/
theorem resolveCategory_spec_witness :
    resolveCategory (some "AIR") = "air" ∧
    resolveCategory (some "chaos") = "land" := by
  constructor
  · exact ((resolveCategory_spec "AIR").1 (by decide)).trans (by decide)
  · exact (resolveCategory_spec "chaos").2.1 (by decide)

/-- Claim C3 is false as stated: the suggestion `" ok "` is returned
verbatim — it is not trimmed of surrounding whitespace and, at 4
characters, is far below the claimed 10-character floor, yet it is
accepted rather than treated as a quality failure. -/
theorem resolveSuggestion_cex :
    resolveSuggestion (some " ok ") = " ok " ∧
    resolveSuggestion (some " ok ") ≠ String.mk (trimWsL (" ok ").data) ∧
    (resolveSuggestion (some " ok ")).data.length < 10 := by
  decide

/-- Claim C3 (amended): the returned suggestion is the model's suggestion
text verbatim (no trimming and no minimum-length gate), with only an empty
or missing suggestion replaced by the fixed generic acknowledgement. -/
theorem resolveSuggestion_spec (s : String) :
    resolveSuggestion none = defaultSuggestion ∧
    resolveSuggestion (some "") = defaultSuggestion ∧
    (s ≠ "" → resolveSuggestion (some s) = s) := by
  refine ⟨rfl, rfl, fun h => ?_⟩
  simp [resolveSuggestion, h]

/-- Witness for the amended C3: a 5-character suggestion is returned as-is. -/
theorem resolveSuggestion_spec_witness :
    resolveSuggestion (some "short") = "short" := by
  exact (resolveSuggestion_spec "short").2.2 (by decide)

/-- Claim C8: with the API key missing (or empty, which is equally falsy)
the operation fails with the fixed configuration message without consulting
any network outcome; with a configured key the result is exactly that of
the model loop, so the configuration error is never raised. -/
theorem apiKey_config_spec (key : Option String) (outcomes : List Outcome) :
    (isGeminiConfigured key = false →
      analyzeComplaintResult key outcomes = .error configErrorMsg) ∧
    (isGeminiConfigured key = true →
      analyzeComplaintResult key outcomes = runModels outcomes none) ∧
    analyzeComplaintResult none outcomes = analyzeComplaintResult none [] := by
  refine ⟨fun h => ?_, fun h => ?_, rfl⟩ <;> simp [analyzeComplaintResult, h]

/-- Witness for C8 at concrete inputs. -/
theorem apiKey_config_spec_witness :
    analyzeComplaintResult none [Outcome.emptyText] = .error configErrorMsg ∧
    analyzeComplaintResult (some "k") [Outcome.success ⟨"air", "s", 1, "W"⟩] =
      .ok ⟨"air", "s", 1, "W"⟩ := by
  constructor
  · exact (apiKey_config_spec none [Outcome.emptyText]).1 (by decide)
  · exact ((apiKey_config_spec (some "k")
      [Outcome.success ⟨"air", "s", 1, "W"⟩]).2.1 (by decide)).trans rfl

/-- Claim C10: the reward trigger credits `COALESCE(points_rewarded, 0)` to
both score and wallet exactly on a transition into `'verified'` from an
absent or different prior status; staying at `'verified'` (or any other
non-transition) changes nothing, and the two counters always move by the
same amount. -/
theorem reward_trigger_spec (oldS newS : Option String) (pts : Option Int)
    (u : UserRow) :
    (newS = some "verified" → oldS ≠ some "verified" →
      update_user_score_on_verification oldS newS pts u =
        { score := some (coalesce0 u.score + coalesce0 pts),
          wallet_balance := some (coalesce0 u.wallet_balance + coalesce0 pts) }) ∧
    (newS = some "verified" → oldS = some "verified" →
      update_user_score_on_verification oldS newS pts u = u) ∧
    (newS ≠ some "verified" →
      update_user_score_on_verification oldS newS pts u = u) ∧
    coalesce0 (update_user_score_on_verification oldS newS pts u).score -
        coalesce0 u.score =
      coalesce0 (update_user_score_on_verification oldS newS pts u).wallet_balance -
        coalesce0 u.wallet_balance := by
  refine ⟨?_, ?_, ?_, ?_⟩
  · rintro rfl hold
    rcases oldS with _ | x
    · simp [update_user_score_on_verification]
    · have hx : x ≠ "verified" := fun hc => hold (by rw [hc])
      simp [update_user_score_on_verification, sqlNeq, hx]
  · rintro rfl rfl
    simp [update_user_score_on_verification, sqlNeq]
  · intro hnew
    have : (newS == some "verified") = false := by
      simpa using hnew
    simp [update_user_score_on_verification, this]
  · unfold update_user_score_on_verification
    split <;> simp [coalesce0]

/-- Witness for C10 at concrete inputs. -/
theorem reward_trigger_spec_witness :
    update_user_score_on_verification (some "pending") (some "verified")
        (some 10) ⟨some 5, none⟩ = ⟨some 15, some 10⟩ ∧
    update_user_score_on_verification (some "verified") (some "verified")
        (some 10) ⟨some 5, some 2⟩ = ⟨some 5, some 2⟩ ∧
    update_user_score_on_verification (some "verified") (some "rejected")
        (some 10) ⟨some 5, some 2⟩ = ⟨some 5, some 2⟩ := by
  refine ⟨?_, ?_, ?_⟩
  · exact ((reward_trigger_spec (some "pending") (some "verified") (some 10)
      ⟨some 5, none⟩).1 rfl (by decide)).trans (by decide)
  · exact (reward_trigger_spec (some "verified") (some "verified") (some 10)
      ⟨some 5, some 2⟩).2.1 rfl rfl
  · exact (reward_trigger_spec (some "verified") (some "rejected") (some 10)
      ⟨some 5, some 2⟩).2.2.1 (by decide)

/-- Claim C9 is false as stated: updating a complaint whose status is
`'pending'` to a NULL status changes the status value, the trigger fires
(`IS DISTINCT FROM` holds), yet the three-valued inner test
`OLD.status <> NEW.status` is not true, so nothing is appended. -/
theorem timeline_null_update_cex :
    (updateComplaintStatus
        ⟨some "pending", [⟨some "pending", 0, some "u"⟩], "u", none⟩
        none 5 (some "admin")).status ≠ some "pending" ∧
    (updateComplaintStatus
        ⟨some "pending", [⟨some "pending", 0, some "u"⟩], "u", none⟩
        none 5 (some "admin")).timeline = [⟨some "pending", 0, some "u"⟩] := by
  decide

/-- Claim C9 (amended): the insert trigger sets the timeline to exactly one
entry recording the initial status; an update appends exactly one entry iff
the new status is non-NULL and differs from the old one (an update that
sets the status to NULL appends nothing even though the value changed), and
existing entries are never modified or removed. -/
theorem timeline_triggers_spec (row : ComplaintRow) (newS : Option String)
    (now : Nat) (actor : Option String) :
    (handle_complaint_initial_timeline row now).timeline =
      [⟨row.status, now, some row.user_id⟩] ∧
    (updateComplaintStatus row newS now actor).timeline =
      (if newS.isSome && (row.status ≠ newS : Bool) then
        row.timeline ++ [⟨newS, now, actor⟩]
      else row.timeline) ∧
    (∃ tail, (updateComplaintStatus row newS now actor).timeline =
      row.timeline ++ tail) := by
  have hmain : (updateComplaintStatus row newS now actor).timeline =
      (if newS.isSome && (row.status ≠ newS : Bool) then
        row.timeline ++ [⟨newS, now, actor⟩]
      else row.timeline) := by
    rcases row with ⟨oldS, tl, uid, pts⟩
    rcases oldS with _ | x <;> rcases newS with _ | y <;>
      simp [updateComplaintStatus, handle_complaint_status_change,
        isDistinctFrom, sqlNeq]
    by_cases hxy : x = y
    · subst hxy
      simp
    · simp [hxy, Ne.symm hxy]
  refine ⟨rfl, hmain, ?_⟩
  rw [hmain]
  split
  · exact ⟨[⟨newS, now, actor⟩], rfl⟩
  · exact ⟨[], by simp⟩

/-- Helper: a successful leftmost scan comes from the matcher succeeding at
some start position. -/
theorem scanFor_eq_some {α : Type} (m : List Char → Option α) :
    ∀ (l : List Char) (r : α), scanFor m l = some r → ∃ l', m l' = some r := by
  intro l
  induction l with
  | nil => exact fun r h => ⟨[], h⟩
  | cons c rest ih =>
    intro r h
    unfold scanFor at h
    cases hm : m (c :: rest) with
    | some x =>
      rw [hm] at h
      exact ⟨c :: rest, hm.trans h⟩
    | none =>
      rw [hm] at h
      exact ih r h

/-- Helper: the category pattern's capture group `([^"]+)` never produces
an empty capture. -/
theorem matchCategoryAt_some_ne {l : List Char} {c : String}
    (h : matchCategoryAt l = some c) : c ≠ "" := by
  unfold matchCategoryAt at h
  split at h
  · exact absurd h (by simp)
  · split at h
    · exact absurd h (by simp)
    · split at h
      · exact absurd h (by simp)
      · exact absurd h (by simp)
      · intro hc
        have hd := congrArg String.data ((Option.some.injEq _ _).mp h)
        simp [hc] at hd

/-- Helper: a matched category capture is non-empty. -/
theorem findCategory_ne_empty {js : String} {c : String}
    (h : findCategory js = some c) : c ≠ "" := by
  obtain ⟨l', hm⟩ := scanFor_eq_some matchCategoryAt js.data c h
  exact matchCategoryAt_some_ne hm

/-- Claim C6: the regex salvage path recovers each recognizable field
independently — a matched category and (after unescaping) a matched
suggestion are returned as extracted — and defaults every unmatched field:
category to `"land"`, suggestion to the generic acknowledgement, ward_id to
`fallbackWardId` (else 1), and ward_name to the empty string; the path
always yields a parsed object rather than failing. -/
theorem regexFallback_spec (js : String) (fb : Option Int) :
    (∀ c, findCategory js = some c → (regexFallback js fb).category = some c) ∧
    (findCategory js = none → (regexFallback js fb).category = some "land") ∧
    (∀ s, findSuggestion js = some s →
      (regexFallback js fb).suggestion =
        some (if unescape s = "" then defaultSuggestion else unescape s)) ∧
    (findSuggestion js = none →
      (regexFallback js fb).suggestion = some defaultSuggestion) ∧
    (∀ n, findWardId js = some n →
      (regexFallback js fb).ward_id = some (n : Int)) ∧
    (findWardId js = none →
      (regexFallback js fb).ward_id = some (fallbackOr1 fb)) ∧
    (∀ nm, findWardName js = some nm →
      (regexFallback js fb).ward_name = some nm) ∧
    (findWardName js = none → (regexFallback js fb).ward_name = some "") := by
  refine ⟨?_, ?_, ?_, ?_, ?_, ?_, ?_, ?_⟩
  · intro c hc
    have hne := findCategory_ne_empty hc
    simp [regexFallback, hc, hne]
  · intro hc
    simp [regexFallback, hc]
  · intro s hs
    simp [regexFallback, hs]
  · intro hs
    simp [regexFallback, hs]
  · intro n hn
    simp [regexFallback, hn]
  · intro hn
    simp [regexFallback, hn]
  · intro nm hnm
    simp [regexFallback, hnm]
  · intro hnm
    simp [regexFallback, hnm]

/-- Witness for C6: a malformed JSON body with recognizable category and
suggestion substrings is salvaged field by field, and a body with no
recognizable fields gets all the documented defaults. -/
theorem regexFallback_spec_witness :
    (regexFallback "\x7b\"category\": \"water\", \"suggestion\": \"Call DJB\", oops"
      (some 3)).category = some "water" ∧
    (regexFallback "\x7b\"category\": \"water\", \"suggestion\": \"Call DJB\", oops"
      (some 3)).suggestion = some "Call DJB" ∧
    (regexFallback "\x7b\"category\": \"water\", \"suggestion\": \"Call DJB\", oops"
      (some 3)).ward_id = some 3 ∧
    (regexFallback "nope" (some 3)).category = some "land" ∧
    (regexFallback "nope" (some 3)).suggestion = some defaultSuggestion ∧
    (regexFallback "nope" (some 3)).ward_id = some 3 ∧
    (regexFallback "nope" none).ward_id = some 1 ∧
    (regexFallback "nope" none).ward_name = some "" := by
  refine ⟨?_, ?_, ?_, ?_, ?_, ?_, ?_, ?_⟩
  · exact (regexFallback_spec
      "\x7b\"category\": \"water\", \"suggestion\": \"Call DJB\", oops"
      (some 3)).1 "water" (by decide)
  · exact ((regexFallback_spec
      "\x7b\"category\": \"water\", \"suggestion\": \"Call DJB\", oops"
      (some 3)).2.2.1 "Call DJB" (by decide)).trans (by decide)
  · exact (regexFallback_spec
      "\x7b\"category\": \"water\", \"suggestion\": \"Call DJB\", oops"
      (some 3)).2.2.2.2.2.1 (by decide)
  · exact (regexFallback_spec "nope" (some 3)).2.1 (by decide)
  · exact (regexFallback_spec "nope" (some 3)).2.2.2.1 (by decide)
  · exact ((regexFallback_spec "nope" (some 3)).2.2.2.2.2.1 (by decide)).trans
      (by decide)
  · exact ((regexFallback_spec "nope" none).2.2.2.2.2.1 (by decide)).trans
      (by decide)
  · exact (regexFallback_spec "nope" none).2.2.2.2.2.2.2 (by decide)

/-- Helper: a prefix of failing attempts is skipped over, whatever the
accumulated last error. -/
theorem runModels_skip_failures (outs : List Outcome) (rest : List Outcome)
    (h : ∀ x ∈ outs, x.isSuccess = false) :
    ∀ last, ∃ last', runModels (outs ++ rest) last = runModels rest last' := by
  induction outs with
  | nil => exact fun last => ⟨last, rfl⟩
  | cons o outs ih =>
    intro last
    have ho : o.isSuccess = false := h o (List.mem_cons_self o outs)
    have h' : ∀ x ∈ outs, x.isSuccess = false :=
      fun x hx => h x (List.mem_cons_of_mem o hx)
    obtain ⟨last', hl⟩ := ih h' (attemptError o)
    refine ⟨last', ?_⟩
    rw [List.cons_append]
    cases o with
    | success a => simp [Outcome.isSuccess] at ho
    | rate429 d => simpa [runModels] using hl
    | httpError st b => simpa [runModels] using hl
    | emptyText => simpa [runModels] using hl
    | thrown m => simpa [runModels] using hl

/-- Claim C4: when every model attempt fails, the loop throws the error of
the last attempt (the last recorded error), with the generic failure when
no attempt ran at all; a failing attempt never aborts the loop — a success
after any string of recoverable failures is still returned; and a final 429
carrying retry delay `"30s"` produces the 30-second wait message (60
seconds being the default when no delay is supplied). -/
theorem runModels_exhaustion_spec (outs : List Outcome) (o : Outcome)
    (a : GeminiAnalysis) (h : ∀ x ∈ outs, x.isSuccess = false)
    (ho : o.isSuccess = false) :
    runModels (outs ++ [o]) none =
      .error ((attemptError o).getD genericFailureMsg) ∧
    runModels (outs ++ [Outcome.success a]) none = .ok a ∧
    runModels [] none = .error genericFailureMsg ∧
    runModels [Outcome.rate429 (some "30s")] none = .error (rateLimitMsg 30) ∧
    runModels [Outcome.rate429 none] none = .error (rateLimitMsg 60) ∧
    rateLimitMsg 30 = "Gemini API rate limit reached. Please wait 30 " ++
      "seconds and try again. Check quota at aistudio.google.com" := by
  refine ⟨?_, ?_, rfl, ?_, ?_, by decide⟩
  · obtain ⟨last', hl⟩ := runModels_skip_failures outs [o] h none
    rw [hl]
    cases o with
    | success a => simp [Outcome.isSuccess] at ho
    | rate429 d => simp [runModels, attemptError]
    | httpError st b => simp [runModels, attemptError]
    | emptyText => simp [runModels, attemptError]
    | thrown m => simp [runModels, attemptError]
  · obtain ⟨last', hl⟩ := runModels_skip_failures outs [Outcome.success a] h none
    rw [hl]
    rfl
  · have h30 : retrySecOf (some "30s") = 30 := by decide
    simp [runModels, attemptError, h30]
  · simp [runModels, attemptError, retrySecOf]

/-- Witness for C4 at concrete inputs: two failures then exhaustion report
the second failure's message; two failures then a success still succeed. -/
theorem runModels_exhaustion_spec_witness :
    runModels [Outcome.emptyText, Outcome.httpError 500 "boom"] none =
      .error ("Gemini API error: 500 - boom") ∧
    runModels [Outcome.emptyText,
      Outcome.success ⟨"air", "s", 1, "W"⟩] none =
      .ok ⟨"air", "s", 1, "W"⟩ := by
  constructor
  · have h1 := (runModels_exhaustion_spec [Outcome.emptyText]
      (Outcome.httpError 500 "boom") ⟨"air", "s", 1, "W"⟩
      (by decide) (by decide)).1
    have h2 : (attemptError (Outcome.httpError 500 "boom")).getD
        genericFailureMsg = "Gemini API error: 500 - boom" := by decide
    rw [h2] at h1
    exact h1
  · exact (runModels_exhaustion_spec [Outcome.emptyText]
      (Outcome.httpError 500 "boom") ⟨"air", "s", 1, "W"⟩
      (by decide) (by decide)).2.1

/-- Claim C5: ward-name resolution — a gazetteer hit for the resolved id
yields that entry's canonical name regardless of the model-supplied name;
on a miss with a supplied (nonzero) fallback ward id, the fallback's
gazetteer name is used, and when the fallback is itself ungazetteered the
synthesized label `"Ward {id}"` is produced. -/
theorem resolveWard_spec (ws : List Ward) (fb : Option Int) (wardId : Int)
    (pname : Option String) :
    (∀ w, ws.find? (fun x => x.id == wardId) = some w →
      resolveWard ws fb wardId pname = (wardId, w.name)) ∧
    (∀ f w, ws.find? (fun x => x.id == wardId) = none → fb = some f →
      f ≠ 0 → ws.find? (fun x => x.id == f) = some w → w.name ≠ "" →
      resolveWard ws fb wardId pname = (f, w.name)) ∧
    (∀ f, ws.find? (fun x => x.id == wardId) = none → fb = some f →
      f ≠ 0 → ws.find? (fun x => x.id == f) = none →
      resolveWard ws fb wardId pname = (f, "Ward " ++ toString f)) := by
  refine ⟨?_, ?_, ?_⟩
  · intro w hw
    simp [resolveWard, hw]
  · rintro f w hmiss rfl hf hw hname
    simp [resolveWard, hmiss, hf, hw, hname]
  · rintro f hmiss rfl hf hw
    simp [resolveWard, hmiss, hf, hw]

/-- Witness for C5 at concrete inputs. -/
theorem resolveWard_spec_witness :
    resolveWard [⟨1, "Narela", "North"⟩] (some 2) 1 (some "Bogus") =
      (1, "Narela") ∧
    resolveWard [⟨1, "Narela", "North"⟩] (some 1) 5 none = (1, "Narela") ∧
    resolveWard [] (some 7) 3 none = (7, "Ward 7") := by
  refine ⟨?_, ?_, ?_⟩
  · exact (resolveWard_spec [⟨1, "Narela", "North"⟩] (some 2) 1
      (some "Bogus")).1 ⟨1, "Narela", "North"⟩ (by decide)
  · exact (resolveWard_spec [⟨1, "Narela", "North"⟩] (some 1) 5 none).2.1
      1 ⟨1, "Narela", "North"⟩ (by decide) rfl (by decide) (by decide) (by decide)
  · exact ((resolveWard_spec [] (some 7) 3 none).2.2 7 rfl rfl (by decide)
      rfl).trans (by decide)

/-! ### Fence-stripping lemmas -/

theorem trimRight_cons (c : Char) (l : List Char) :
    trimRight (c :: l) =
      if trimRight l = [] then (if isWs c = true then [] else [c])
      else c :: trimRight l := by
  conv_lhs => unfold trimRight
  split <;> rename_i heq
  · rw [if_pos heq]
  · rw [if_neg heq]

theorem trimRight_eq_nil_iff : ∀ {l : List Char},
    trimRight l = [] ↔ ∀ c ∈ l, isWs c = true := by
  intro l
  induction l with
  | nil => simp [trimRight]
  | cons c rest ih =>
    rw [trimRight_cons]
    by_cases hr : trimRight rest = []
    · rw [if_pos hr]
      by_cases hc : isWs c = true
      · rw [if_pos hc]
        simp only [List.forall_mem_cons]
        exact iff_of_true trivial ⟨hc, ih.mp hr⟩
      · rw [if_neg hc]
        simp only [List.forall_mem_cons]
        constructor
        · intro h; simp at h
        · rintro ⟨h1, h2⟩; exact absurd h1 hc
    · rw [if_neg hr]
      simp only [List.forall_mem_cons]
      constructor
      · intro h; simp at h
      · rintro ⟨h1, h2⟩
        exact absurd (ih.mpr h2) hr

theorem dropWhile_idem (p : Char → Bool) (l : List Char) :
    (l.dropWhile p).dropWhile p = l.dropWhile p := by
  induction l with
  | nil => rfl
  | cons c rest ih =>
    rw [List.dropWhile_cons]
    by_cases hp : p c = true
    · rw [if_pos hp]; exact ih
    · rw [if_neg hp, List.dropWhile_cons, if_neg hp]

theorem trimRight_idem : ∀ (l : List Char),
    trimRight (trimRight l) = trimRight l := by
  intro l
  induction l with
  | nil => rfl
  | cons c rest ih =>
    rw [trimRight_cons]
    by_cases hr : trimRight rest = []
    · rw [if_pos hr]
      by_cases hc : isWs c = true
      · rw [if_pos hc]; rfl
      · rw [if_neg hc]
        rw [show trimRight [c] = if trimRight ([] : List Char) = [] then
          (if isWs c = true then [] else [c]) else c :: trimRight [] from
          trimRight_cons c []]
        simp [trimRight, hc]
    · rw [if_neg hr, trimRight_cons, ih, if_neg hr]

theorem dropWhile_trimRight_comm : ∀ (l : List Char),
    (trimRight l).dropWhile isWs = trimRight (l.dropWhile isWs) := by
  intro l
  induction l with
  | nil => rfl
  | cons c rest ih =>
    by_cases hc : isWs c = true
    · rw [List.dropWhile_cons, if_pos hc, ← ih, trimRight_cons]
      by_cases hr : trimRight rest = []
      · rw [if_pos hr, if_pos hc, hr]
      · rw [if_neg hr, List.dropWhile_cons, if_pos hc]
    · rw [List.dropWhile_cons, if_neg hc, trimRight_cons]
      by_cases hr : trimRight rest = []
      · rw [if_pos hr, if_neg hc]
        simp [List.dropWhile_cons, hc]
      · rw [if_neg hr, List.dropWhile_cons, if_neg hc]

theorem trimWsL_idem (l : List Char) : trimWsL (trimWsL l) = trimWsL l := by
  unfold trimWsL
  rw [dropWhile_trimRight_comm, dropWhile_idem, trimRight_idem]

/-- A text that does not open with a fence is left alone by the leading
replace. -/
theorem stripLeadFence_of_not_fence (l : List Char)
    (h : startsWithFence l = false) : stripLeadFence l = l := by
  unfold startsWithFence at h
  unfold stripLeadFence
  split
  · rename_i c1 c2 c3 rest
    have h2 : (decide (c1 = backquote) && decide (c2 = backquote) &&
      decide (c3 = backquote)) = false := h
    rw [h2]
    simp
  · rfl

theorem trailMatchAt_cons_ws {c : Char} (l : List Char) (hc : isWs c = true) :
    trailMatchAt (c :: l) = trailMatchAt l := by
  unfold trailMatchAt
  rw [List.dropWhile_cons, if_pos hc]

/-- A text none of whose suffixes matches the trailing-fence pattern is
left alone by the trailing replace. -/
theorem stripTrailFence_of_no_trail (l : List Char)
    (h : hasTrailFence l = false) : stripTrailFence l = l := by
  induction l with
  | nil => rfl
  | cons c rest ih =>
    unfold hasTrailFence at h
    rw [Bool.or_eq_false_iff] at h
    unfold stripTrailFence
    rw [h.1]
    simp only [Bool.false_eq_true, if_false]
    rw [ih h.2]

theorem dropWhile_append_all {p : Char → Bool} (l₁ l₂ : List Char)
    (h : ∀ c ∈ l₁, p c = true) :
    (l₁ ++ l₂).dropWhile p = l₂.dropWhile p := by
  induction l₁ with
  | nil => rfl
  | cons c rest ih =>
    rw [List.cons_append, List.dropWhile_cons,
      if_pos (h c (List.mem_cons_self c rest))]
    exact ih fun x hx => h x (List.mem_cons_of_mem c hx)

theorem dropWhile_append_of_ne_nil {p : Char → Bool} (l₁ l₂ : List Char)
    (h : l₁.dropWhile p ≠ []) :
    (l₁ ++ l₂).dropWhile p = l₁.dropWhile p ++ l₂ := by
  induction l₁ with
  | nil => exact absurd rfl h
  | cons c rest ih =>
    rw [List.cons_append, List.dropWhile_cons, List.dropWhile_cons]
    rw [List.dropWhile_cons] at h
    by_cases hp : p c = true
    · rw [if_pos hp] at h ⊢
      rw [if_pos hp]
      exact ih h
    · rw [if_neg hp, if_neg hp, List.cons_append]

theorem trimRight_append_all (l₁ l₂ : List Char)
    (h : ∀ c ∈ l₂, isWs c = true) :
    trimRight (l₁ ++ l₂) = trimRight l₁ := by
  induction l₁ with
  | nil =>
    simp only [List.nil_append]
    rw [trimRight_eq_nil_iff.mpr h]
    rfl
  | cons c rest ih =>
    rw [List.cons_append, trimRight_cons, ih, ← trimRight_cons]

theorem trimRight_append_last (l : List Char) (c : Char) (hc : isWs c = false) :
    trimRight (l ++ [c]) = l ++ [c] := by
  induction l with
  | nil =>
    simp only [List.nil_append]
    rw [trimRight_cons]
    simp [trimRight, hc]
  | cons d rest ih =>
    rw [List.cons_append, trimRight_cons, ih]
    have hne : rest ++ [c] ≠ [] := by simp
    rw [if_neg hne]

/-- The trailing-fence pattern matches a payload followed by the closing
fence exactly when the payload is all whitespace — an inner backquote run
is shielded by the appended fence's own (non-whitespace) backquotes. -/
theorem trailMatchAt_fence_iff (l : List Char) :
    (trailMatchAt (l ++ fenceClose) = true) ↔ ∀ c ∈ l, isWs c = true := by
  induction l with
  | nil => exact iff_of_true (by decide) (by simp)
  | cons c rest ih =>
    by_cases hc : isWs c = true
    · rw [List.cons_append, trailMatchAt_cons_ws _ hc, ih]
      simp [List.forall_mem_cons, hc]
    · rw [List.cons_append]
      have e2 : decide (('\n' : Char) = backquote) = false := by decide
      have e3 : fenceClose.all isWs = false := by decide
      have hLHS : trailMatchAt (c :: (rest ++ fenceClose)) = false := by
        unfold trailMatchAt
        rw [List.dropWhile_cons, if_neg (by simp [hc])]
        rcases rest with _ | ⟨d, _ | ⟨e, rest2⟩⟩
        · simp [fenceClose, e2]
        · simp [fenceClose, e2]
        · have h4 : (rest2 ++ fenceClose).all isWs = false := by
            simp [List.all_append, e3]
          simp [h4]
      rw [hLHS]
      simp [List.forall_mem_cons, hc]

/-- Removing the trailing fence from a payload followed by the closing
fence right-trims the payload, whatever characters (backquotes included)
the payload contains. -/
theorem stripTrailFence_fence (l : List Char) :
    stripTrailFence (l ++ fenceClose) = trimRight l := by
  induction l with
  | nil => decide
  | cons c rest ih =>
    rw [List.cons_append]
    unfold stripTrailFence
    by_cases hm : trailMatchAt (c :: (rest ++ fenceClose)) = true
    · rw [if_pos hm]
      have hall : ∀ x ∈ c :: rest, isWs x = true := by
        apply (trailMatchAt_fence_iff (c :: rest)).mp
        rw [List.cons_append]
        exact hm
      exact (trimRight_eq_nil_iff.mpr hall).symm
    · rw [if_neg hm, ih, trimRight_cons]
      by_cases hr : trimRight rest = []
      · rw [if_pos hr]
        by_cases hc : isWs c = true
        · exfalso
          apply hm
          have hall : ∀ x ∈ c :: rest, isWs x = true := by
            intro x hx
            rcases List.mem_cons.mp hx with rfl | hx'
            · exact hc
            · exact trimRight_eq_nil_iff.mp hr x hx'
          have h2 := (trailMatchAt_fence_iff (c :: rest)).mpr hall
          rw [List.cons_append] at h2
          exact h2
        · rw [if_neg hc, hr]
      · rw [if_neg hr]

theorem stripJsonTag_not_j {c : Char} (hc : lowEq c 'j' = false)
    (r : List Char) : stripJsonTag (c :: r) = c :: r := by
  unfold stripJsonTag
  split
  · rename_i c1 c2 c3 c4 rest heq
    injection heq with h1 h2
    subst h1
    simp [hc]
  · rfl

theorem stripLeadFence_json (r : List Char) :
    stripLeadFence (fenceOpenJson ++ r) = r.dropWhile isWs := rfl

theorem stripLeadFence_plain (r : List Char) :
    stripLeadFence (fenceOpenPlain ++ r) = r.dropWhile isWs := by
  have h0 : stripLeadFence (fenceOpenPlain ++ r) =
      (stripJsonTag ('\n' :: r)).dropWhile isWs := rfl
  rw [h0, stripJsonTag_not_j (by decide) r, List.dropWhile_cons,
    if_pos (by decide)]

/-- On a text whose trimmed form is not fence-decorated, the whole
preprocessing chain is just the trim. -/
theorem stripFences_chain (t : List Char)
    (h1 : startsWithFence (trimWsL t) = false)
    (h2 : hasTrailFence (trimWsL t) = false) :
    trimWsL (stripTrailFence (stripLeadFence (trimWsL t))) = trimWsL t := by
  rw [stripLeadFence_of_not_fence _ h1, stripTrailFence_of_no_trail _ h2,
    trimWsL_idem]

theorem stripFences_wrap (a wsl wsr fo : List Char)
    (hne : trimWsL a ≠ [])
    (hwsl : ∀ c ∈ wsl, isWs c = true)
    (hwsr : ∀ c ∈ wsr, isWs c = true)
    (hfo0 : ∃ t, fo = backquote :: t)
    (hfo : stripLeadFence (fo ++ (a ++ fenceClose)) =
      (a ++ fenceClose).dropWhile isWs) :
    trimWsL (stripTrailFence (stripLeadFence
      (trimWsL (wsl ++ (fo ++ (a ++ fenceClose)) ++ wsr)))) = trimWsL a := by
  obtain ⟨t, rfl⟩ := hfo0
  have ha' : a.dropWhile isWs ≠ [] := by
    intro h
    apply hne
    unfold trimWsL
    rw [h]
    rfl
  have hX : trimWsL (wsl ++ ((backquote :: t) ++ (a ++ fenceClose)) ++ wsr) =
      (backquote :: t) ++ (a ++ fenceClose) := by
    rw [List.append_assoc]
    unfold trimWsL
    rw [dropWhile_append_all wsl _ hwsl]
    rw [show ((backquote :: t) ++ (a ++ fenceClose)) ++ wsr =
      backquote :: (t ++ (a ++ fenceClose) ++ wsr) by simp]
    rw [List.dropWhile_cons, if_neg (by decide)]
    rw [show backquote :: (t ++ (a ++ fenceClose) ++ wsr) =
      (backquote :: (t ++ (a ++ fenceClose))) ++ wsr by simp]
    rw [trimRight_append_all _ _ hwsr]
    rw [show backquote :: (t ++ (a ++ fenceClose)) =
      (backquote :: (t ++ (a ++ ['\n', backquote, backquote]))) ++ [backquote]
      by simp [fenceClose]]
    rw [trimRight_append_last _ _ (by decide)]
    simp [fenceClose]
  rw [hX, hfo]
  rw [dropWhile_append_of_ne_nil _ _ ha']
  rw [stripTrailFence_fence]
  exact trimWsL_idem a

/-- Claim C7: the parse stage's fence handling — for every (non-blank)
payload `s` that is not itself fence-decorated (its trimmed form neither
opens with a ``` fence nor has a suffix matching the trailing-fence
pattern; every JSON payload qualifies, backquotes inside string values
included), the preprocessing of `s` wrapped in ```` ``` ```` or
```` ```json ```` fences (with surrounding whitespace) equals the
preprocessing of `s` unwrapped, both being the trimmed payload; stripping
an already-stripped string leaves it unchanged.  JSON parsing and the
regex salvage both consume exactly this preprocessed string, so equal
preprocessing yields equal parsed fields. -/
theorem stripFences_spec (s : String) (wsl wsr : List Char)
    (h1 : startsWithFence (trimWsL s.data) = false)
    (h2 : hasTrailFence (trimWsL s.data) = false)
    (hne : trimWsL s.data ≠ [])
    (hwsl : ∀ c ∈ wsl, isWs c = true)
    (hwsr : ∀ c ∈ wsr, isWs c = true) :
    stripFences (String.mk
      (wsl ++ (fenceOpenJson ++ (s.data ++ fenceClose)) ++ wsr)) =
        stripFences s ∧
    stripFences (String.mk
      (wsl ++ (fenceOpenPlain ++ (s.data ++ fenceClose)) ++ wsr)) =
        stripFences s ∧
    stripFences (stripFences s) = stripFences s ∧
    stripFences s = String.mk (trimWsL s.data) := by
  have h4 : stripFences s = String.mk (trimWsL s.data) := by
    unfold stripFences
    rw [stripFences_chain _ h1 h2]
  have h3 : stripFences (stripFences s) = stripFences s := by
    rw [h4]
    show String.mk (trimWsL (stripTrailFence (stripLeadFence
      (trimWsL (trimWsL s.data))))) = _
    rw [trimWsL_idem, stripFences_chain _ h1 h2]
  refine ⟨?_, ?_, h3, h4⟩
  · show String.mk (trimWsL (stripTrailFence (stripLeadFence (trimWsL
      (wsl ++ (fenceOpenJson ++ (s.data ++ fenceClose)) ++ wsr))))) = _
    rw [stripFences_wrap s.data wsl wsr fenceOpenJson hne hwsl hwsr
      ⟨_, rfl⟩ (stripLeadFence_json _), h4]
  · show String.mk (trimWsL (stripTrailFence (stripLeadFence (trimWsL
      (wsl ++ (fenceOpenPlain ++ (s.data ++ fenceClose)) ++ wsr))))) = _
    rw [stripFences_wrap s.data wsl wsr fenceOpenPlain hne hwsl hwsr
      ⟨_, rfl⟩ (stripLeadFence_plain _), h4]

/-- Witness for C7 at concrete payloads, one of which carries backquotes
inside a JSON string value: fenced and unfenced forms strip to the same
string, and stripping is idempotent. -/
theorem stripFences_spec_witness :
    stripFences (String.mk
      ([' '] ++ (fenceOpenJson ++ (("\x7b\"a\": 1\x7d").data ++ fenceClose)) ++
        ['\n'])) = stripFences "\x7b\"a\": 1\x7d" ∧
    stripFences (String.mk
      ([] ++ (fenceOpenPlain ++ (("\x7b\"a\": 1\x7d").data ++ fenceClose)) ++
        [])) = stripFences "\x7b\"a\": 1\x7d" ∧
    stripFences (stripFences "\x7b\"a\": 1\x7d") = stripFences "\x7b\"a\": 1\x7d" ∧
    stripFences (String.mk
      ([] ++ (fenceOpenJson ++
        (("\x7b\"cmd\": \"run \x60ls\x60 now\"\x7d").data ++ fenceClose)) ++
        [])) = stripFences "\x7b\"cmd\": \"run \x60ls\x60 now\"\x7d" ∧
    stripFences (stripFences "\x7b\"cmd\": \"run \x60ls\x60 now\"\x7d") =
      stripFences "\x7b\"cmd\": \"run \x60ls\x60 now\"\x7d" := by
  refine ⟨?_, ?_, ?_, ?_, ?_⟩
  · exact (stripFences_spec "\x7b\"a\": 1\x7d" [' '] ['\n'] (by decide)
      (by decide) (by decide) (by decide) (by decide)).1
  · exact (stripFences_spec "\x7b\"a\": 1\x7d" [] [] (by decide) (by decide)
      (by decide) (by decide) (by decide)).2.1
  · exact (stripFences_spec "\x7b\"a\": 1\x7d" [] [] (by decide) (by decide)
      (by decide) (by decide) (by decide)).2.2.1
  · exact (stripFences_spec "\x7b\"cmd\": \"run \x60ls\x60 now\"\x7d" [] []
      (by decide) (by decide) (by decide) (by decide) (by decide)).1
  · exact (stripFences_spec "\x7b\"cmd\": \"run \x60ls\x60 now\"\x7d" [] []
      (by decide) (by decide) (by decide) (by decide) (by decide)).2.2.1

end Delhigrid
